import Mathlib

/-
Verification of the rexec remote-execution library (github.com/cdfmlr/rexec).

The development shallowly embeds the Go source:

* the shlex tokenizer behind cmdSlice (github.com/google/shlex, the external
  library called by cmdSlice) as an explicit character-level state machine;
* the Command value, its Validate / setDefaultStdio mutations and the
  dangerous-substring checks;
* the keep-alive schedule SshKeepAliveConfig.interval with Go's wrapping
  64-bit duration arithmetic made explicit;
* the host-key-callback resolution of ssh.go with the file system and the
  x/crypto parsing and known-hosts primitives abstracted as oracles;
* the keepAliveSshClient Close/Client lock-atomic state transitions;
* the four executors' Execute control flow, with the external process and
  transport outcomes abstracted as oracles.

Go mutation is modelled by explicit state passing; fallible Go calls return
Except or Option values.
-/

set_option linter.dupNamespace false

namespace Rexec

/-! ## The shlex tokenizer (github.com/google/shlex)

`cmdSlice` in the source is `shlex.Split`.  The tokenizer classifies runes
into spaces, the escaping quote, the non-escaping quote, the escape
character and the comment character, and runs a seven-state machine.
The lexer on top of it drops comment tokens; `Split` collects word tokens
until EOF and propagates tokenizer errors.  Characters with scanner-hostile
literals are written with `Char.ofNat` (34 = double quote, 39 = single
quote, 92 = backslash). -/

/-- Rune classes of the shlex tokenizer. -/
inductive RuneClass
  | space
  | escapingQuote
  | nonEscapingQuote
  | escape
  | comm
  | other
deriving DecidableEq

/-- The shlex token classifier: spaces are " \t\r\n", the escaping quote is
the double quote, the non-escaping quote is the single quote, the escape
character is the backslash and the comment character is the hash sign. -/
def classifyRune (c : Char) : RuneClass :=
  if c = Char.ofNat 32 ∨ c = Char.ofNat 9 ∨ c = Char.ofNat 13 ∨ c = Char.ofNat 10 then .space
  else if c = Char.ofNat 34 then .escapingQuote
  else if c = Char.ofNat 39 then .nonEscapingQuote
  else if c = Char.ofNat 92 then .escape
  else if c = '#' then .comm
  else .other

/-- States of the shlex tokenizer state machine. -/
inductive ShlexState
  | start
  | inWord
  | escaping
  | escapingQuoted
  | quotingEscaping
  | quoting
  | commentState
deriving DecidableEq

/-- One run of shlex.Split over the remaining input: `acc` is the reversed
value of the token being scanned, `toks` the reversed list of word tokens
already emitted (comment tokens are dropped by the lexer).  Unterminated
quotes and a trailing escape character are the tokenizer errors that
shlex.Split propagates. -/
def shlexRun : List Char → ShlexState → List Char → List String → Except String (List String)
  | [], st, acc, toks =>
    match st with
    | .start => .ok toks.reverse
    | .inWord => .ok (String.mk acc.reverse :: toks).reverse
    | .escaping => .error "EOF found after escape character"
    | .escapingQuoted => .error "EOF found after escape character"
    | .quotingEscaping => .error "EOF found when expecting closing quote"
    | .quoting => .error "EOF found when expecting closing quote"
    | .commentState => .ok toks.reverse
  | c :: rest, st, acc, toks =>
    match st, classifyRune c with
    | .start, .space => shlexRun rest .start [] toks
    | .start, .escapingQuote => shlexRun rest .quotingEscaping acc toks
    | .start, .nonEscapingQuote => shlexRun rest .quoting acc toks
    | .start, .escape => shlexRun rest .escaping acc toks
    | .start, .comm => shlexRun rest .commentState [] toks
    | .start, .other => shlexRun rest .inWord (c :: acc) toks
    | .inWord, .space => shlexRun rest .start [] (String.mk acc.reverse :: toks)
    | .inWord, .escapingQuote => shlexRun rest .quotingEscaping acc toks
    | .inWord, .nonEscapingQuote => shlexRun rest .quoting acc toks
    | .inWord, .escape => shlexRun rest .escaping acc toks
    | .inWord, _ => shlexRun rest .inWord (c :: acc) toks
    | .escaping, _ => shlexRun rest .inWord (c :: acc) toks
    | .escapingQuoted, _ => shlexRun rest .quotingEscaping (c :: acc) toks
    | .quotingEscaping, .escapingQuote => shlexRun rest .inWord acc toks
    | .quotingEscaping, .escape => shlexRun rest .escapingQuoted acc toks
    | .quotingEscaping, _ => shlexRun rest .quotingEscaping (c :: acc) toks
    | .quoting, .nonEscapingQuote => shlexRun rest .inWord acc toks
    | .quoting, _ => shlexRun rest .quoting (c :: acc) toks
    | .commentState, _ =>
      if c = Char.ofNat 10 then shlexRun rest .start [] toks
      else shlexRun rest .commentState (c :: acc) toks

/-- cmdSlice converts a command string with arguments into a slice of
fields, preserving quoted substrings; it is shlex.Split in the source. -/
def cmdSlice (s : String) : Except String (List String) :=
  shlexRun s.data .start [] []


/-! ## Command and its validation (shellcmd.go)

A Go `io.Reader`/`io.Writer` handle is abstracted to an `IOStream`; a nil
handle is `Option.none`.  The Env map is modelled as an association list
(Go map iteration order is unspecified; which dangerous entry is reported
first may differ, but whether validation fails does not).  Mutation of the
command by `setDefaultStdio` is modelled by returning the updated value. -/

/-- Abstract stdio handle: the two defaults that setDefaultStdio installs
(an empty bytes.Reader for Stdin, a fresh bytes.Buffer for Stdout/Stderr)
and arbitrary caller-supplied handles. -/
inductive IOStream
  | emptyBytesReader
  | emptyBuffer
  | user (id : Nat)
deriving DecidableEq

/-- Command is a command to run: text, workdir, env, the three stdio
handles, the mutable exit status and the atomic single-start flag.  The
field names follow the Go struct, including the Command field sharing the
struct name. -/
structure Command where
  Command : String
  Workdir : String
  Env : List (String × String)
  Stdin : Option IOStream
  Stdout : Option IOStream
  Stderr : Option IOStream
  Status : Int
  started : Bool
deriving DecidableEq

/-- Substring test on character lists: strings.Contains. -/
def containsSub (pat : List Char) : List Char → Bool
  | [] => pat.isEmpty
  | c :: t => pat.isPrefixOf (c :: t) || containsSub pat t

/-- strings.Contains s pat. -/
def strContains (s pat : String) : Bool :=
  containsSub pat.data s.data


/-- Dangerous substrings banned from workdir and env entries.  Braces and
the backtick and backspace are written with escapes for the benefit of
the character scanner. -/
def WorkdirDangerous : List String :=
  ["\n", "\t", "\r", "\x08", " ", ";", "&", "|", "<", ">", "\x60",
   "(", ")", "\x7b", "\x7d", "[", "]", "$", "~"]

/-- EnvDangerous equals WorkdirDangerous in the source. -/
def EnvDangerous : List String := WorkdirDangerous

/-- The one fork-bomb literal banned from command text. -/
def CommandDangerous : List String := [":()\x7b :|:& \x7d;:"]

/-- containsDangerous returns whether s contains any dangerous substring,
with the first one found. -/
def containsDangerous (s : String) (dangerous : List String) : Bool × String :=
  match dangerous.find? (fun d => strContains s d) with
  | some d => (true, d)
  | none => (false, "")

/-- Errors of Command.Validate.  Each dangerous-substring error carries the
offending fields and the dangerous fragment, as the Go wrapped errors do. -/
inductive ValidateError
  | nilCommand
  | emptyCommand
  | dangerousWorkdir (w c : String)
  | dangerousEnvKey (k v c : String)
  | dangerousEnvVal (k v c : String)
  | dangerousCommand (cmd c : String)
deriving DecidableEq

/-- setDefaultStdio replaces nil stdio handles by the defaults. -/
def Command.setDefaultStdio (e : Rexec.Command) : Rexec.Command :=
  { e with
    Stdin := match e.Stdin with
      | none => some .emptyBytesReader
      | some s => some s
    Stdout := match e.Stdout with
      | none => some .emptyBuffer
      | some s => some s
    Stderr := match e.Stderr with
      | none => some .emptyBuffer
      | some s => some s }

/-- The env loop of Validate: first dangerous key or value wins. -/
def validateEnv : List (String × String) → Option ValidateError
  | [] => none
  | (k, v) :: rest =>
    let dk := containsDangerous k EnvDangerous
    if dk.fst then some (.dangerousEnvKey k v dk.snd)
    else
      let dv := containsDangerous v EnvDangerous
      if dv.fst then some (.dangerousEnvVal k v dv.snd)
      else validateEnv rest

/-- The checks Validate performs after defaulting the stdio handles, in
source order: empty command, dangerous workdir, dangerous env entries,
dangerous command text. -/
def Command.validateChecks (e : Rexec.Command) : Option ValidateError :=
  if e.Command = "" then some .emptyCommand
  else
    match (if e.Workdir ≠ "" then
            (let d := containsDangerous e.Workdir WorkdirDangerous
             if d.fst then some (ValidateError.dangerousWorkdir e.Workdir d.snd) else none)
           else none) with
    | some err => some err
    | none =>
      match validateEnv e.Env with
      | some err => some err
      | none =>
        let d := containsDangerous e.Command CommandDangerous
        if d.fst then some (.dangerousCommand e.Command d.snd) else none

/-- Validate on a non-nil command: it first sets the default stdio handles,
then runs the checks; the mutated command is returned together with the
error.  The nil-receiver case (ErrNilCommand) is handled at call sites. -/
def Command.Validate (e : Rexec.Command) : Rexec.Command × Option ValidateError :=
  let e2 := e.setDefaultStdio
  (e2, e2.validateChecks)

/-- The "cd workdir && " part of ShellString. -/
def Command.cdWorkdirParts (e : Rexec.Command) : String :=
  if e.Workdir = "" then "" else "cd " ++ e.Workdir ++ " && "

/-- The "export k=v && ... " part of ShellString. -/
def Command.envVarsParts (e : Rexec.Command) : String :=
  if e.Env.isEmpty then ""
  else String.intercalate " "
    (e.Env.map (fun kv => "export " ++ kv.fst ++ "=" ++ kv.snd ++ " &&")) ++ " "

/-- ShellString combines cd, exports and the command text.  (In the source
it also calls Validate for a log-only check; the executors always validate
first, so the stdio side effect is already applied there.) -/
def Command.ShellString (e : Rexec.Command) : String :=
  e.cdWorkdirParts ++ e.envVarsParts ++ e.Command

/-- envSlice turns the env mapping into KEY=VALUE strings. -/
def envSlice (env : List (String × String)) : List String :=
  env.map (fun kv => kv.fst ++ "=" ++ kv.snd)


/-! ## The keep-alive schedule (sshconfig.go)

Go durations are 64-bit signed nanosecond counts and Go multiplication and
addition wrap; `i64` makes that wrap-around explicit.  All quantities are
in nanoseconds. -/

/-- Wrap an unbounded integer to signed 64-bit two's-complement, the
semantics of Go int64/time.Duration arithmetic. -/
def i64 (x : Int) : Int := (x + 2 ^ 63) % 2 ^ 64 - 2 ^ 63

/-- One second, in nanoseconds (time.Second). -/
def Second : Int := 1000000000

/-- MinSshKeepAliveInterval is the floor of the schedule (1 second). -/
def MinSshKeepAliveInterval : Int := Second

/-- Configuration of the keep-alive schedule, in whole seconds. -/
structure SshKeepAliveConfig where
  IntervalSeconds : Int
  IncrementSeconds : Int
deriving DecidableEq

/-- interval computes the next keep-alive delay:
clamp a negative base and negative retries to zero, then
i := Duration(IntervalSeconds) * Second;
i += Duration(IncrementSeconds) * Second * Duration(retries);
finally clamp to MinSshKeepAliveInterval.  Each Go multiplication and the
addition wraps at 64 bits, which the i64 wrappers record. -/
def SshKeepAliveConfig.interval (c : SshKeepAliveConfig) (retries : Int) : Int :=
  let intervalSeconds := if c.IntervalSeconds < 0 then 0 else c.IntervalSeconds
  let retries2 := if retries < 0 then 0 else retries
  let i := i64 (intervalSeconds * Second)
  let i2 := i64 (i + i64 (i64 (c.IncrementSeconds * Second) * retries2))
  if i2 < MinSshKeepAliveInterval then MinSshKeepAliveInterval else i2


/-! ## Host key checking (ssh.go)

Resolution of an SshHostKeyCheckConfig into an ssh.HostKeyCallback.
External pieces are oracles over an abstract public-key type κ:
ssh.ParseAuthorizedKey, knownhosts.New (which fails on missing or
malformed files) and the list of existing default known_hosts files that
defaultKnownHostsPaths would return after stat-ing the well-known
locations.  The deny-all closure is repository code, so its evaluation is
concrete; FixedHostKey and InsecureIgnoreHostKey are x/crypto callbacks
modelled from their documented behavior (exact key match, accept all);
known-hosts lookup stays an oracle. -/

/-- SshHostKeyCheckConfig is the host-key-checking configuration:
a fixed authorized-key line, known_hosts file paths, or the insecure
accept-all switch. -/
structure SshHostKeyCheckConfig where
  FixedHostKey : String
  KnownHostsPath : List String
  InsecureIgnore : Bool
deriving DecidableEq

/-- External collaborators of hostKeyCallback.  κ is the abstract
ssh.PublicKey type. -/
structure SshExternals (κ : Type) where
  parseAuthorizedKey : String → Except String κ
  knownHostsNew : List String → Except String Unit
  osDefaultKnownHostsFiles : List String

/-- The shapes of ssh.HostKeyCallback this code can produce. -/
inductive HostKeyCallback (κ : Type)
  | denyAll (msg : String)
  | fixedHostKey (key : κ)
  | knownHosts (paths : List String)
  | insecureIgnoreHostKey
deriving DecidableEq

/-- denyAllHostKeys returns a callback rejecting every host key. -/
def denyAllHostKeys {κ : Type} (msg : String) : HostKeyCallback κ :=
  .denyAll msg

/-- defaultKnownHostsCallback: use the existing default known_hosts files,
or deny all host keys when none exists. -/
def defaultKnownHostsCallback {κ : Type} (ext : SshExternals κ) :
    Except String (HostKeyCallback κ) :=
  let knownHostsPaths := ext.osDefaultKnownHostsFiles
  if knownHostsPaths.isEmpty then
    .ok (denyAllHostKeys
      "make sure you have a known_hosts file at ~/.ssh/known_hosts or /etc/ssh/ssh_known_hosts")
  else
    match ext.knownHostsNew knownHostsPaths with
    | .ok _ => .ok (.knownHosts knownHostsPaths)
    | .error e => .error e

/-- hostKeyCallback resolves the config with priority
FixedHostKey > KnownHostsPath > InsecureIgnore > default known_hosts >
deny all.  A nil config is `none`. -/
def hostKeyCallback {κ : Type} (ext : SshExternals κ)
    (config : Option SshHostKeyCheckConfig) : Except String (HostKeyCallback κ) :=
  match config with
  | none => defaultKnownHostsCallback ext
  | some config =>
    if config.FixedHostKey ≠ "" then
      match ext.parseAuthorizedKey config.FixedHostKey.trim with
      | .error e => .error e
      | .ok publicKey => .ok (.fixedHostKey publicKey)
    else if ¬ config.KnownHostsPath.isEmpty then
      match ext.knownHostsNew config.KnownHostsPath with
      | .ok _ => .ok (.knownHosts config.KnownHostsPath)
      | .error e => .error e
    else if config.InsecureIgnore then .ok .insecureIgnoreHostKey
    else defaultKnownHostsCallback ext

/-- Evaluate a produced callback on a (hostname, remote address, key)
triple.  The deny-all branch is the closure from ssh.go; fixedHostKey and
insecureIgnoreHostKey follow the documented x/crypto semantics (exact
match of the configured key, and accept-all); the known-hosts lookup is
the oracle `kh`. -/
def HostKeyCallback.eval {κ : Type} [DecidableEq κ]
    (kh : List String → String → String → κ → Except String Unit) :
    HostKeyCallback κ → String → String → κ → Except String Unit
  | .denyAll msg, _, _, _ => .error ("ssh: all host keys are denied: " ++ msg)
  | .fixedHostKey k, _, _, key =>
    if key = k then .ok () else .error "ssh: host key mismatch"
  | .knownHosts paths, hostname, remote, key => kh paths hostname remote key
  | .insecureIgnoreHostKey, _, _, _ => .ok ()

/-! ## The keep-alive SSH client (keepalivessh.go)

State of a keepAliveSshClient: the underlying *ssh.Client handle
(abstracted to a numeric id), the closed flag, and whether the keepAlive
goroutine is live (the stop-channel/wait-group machinery).  Close and
Client both run under the single mutex, so each is one atomic transition.
Dial results and the underlying client's Close error are oracles. -/

/-- Mutable state of a keepAliveSshClient, as guarded by its mutex. -/
structure keepAliveSshClient where
  client : Option Nat
  closed : Bool
  keepAliveRunning : Bool
deriving DecidableEq

/-- Errors Close can return. -/
inductive KaCloseError
  | alreadyClosed
  | clientCloseFailed (msg : String)
deriving DecidableEq

/-- Result of one Close call: the returned error, the state after the
call, and how many times the underlying ssh client's Close was invoked. -/
structure KaCloseOutcome where
  err : Option KaCloseError
  state : keepAliveSshClient
  underlyingCloseCalls : Nat
deriving DecidableEq

/-- Close: under the lock, an already-closed client reports ErrAlreadyClosed
and does nothing else; otherwise it marks the client closed, stops the
keep-alive goroutine (signal stop then wait for it to exit), closes any
live underlying client exactly once and clears the handle.  `closeErr` is
the oracle for the underlying ssh client's Close result. -/
def keepAliveSshClient.Close (closeErr : Option String) (c : keepAliveSshClient) :
    KaCloseOutcome :=
  if c.closed then
    { err := some .alreadyClosed, state := c, underlyingCloseCalls := 0 }
  else
    match c.client with
    | some _ =>
      { err := closeErr.map KaCloseError.clientCloseFailed
        state := { client := none, closed := true, keepAliveRunning := false }
        underlyingCloseCalls := 1 }
    | none =>
      { err := none
        state := { client := none, closed := true, keepAliveRunning := false }
        underlyingCloseCalls := 0 }

/-- Result of one Client call. -/
structure KaClientOutcome where
  result : Except String Nat
  state : keepAliveSshClient

/-- Client: under the lock, return the existing handle if there is one;
otherwise dial (oracle `dial`) — on failure return the dial error
unchanged, on success store the handle and (re)start the keep-alive
goroutine.  Note that the closed flag is never consulted. -/
def keepAliveSshClient.Client (dial : Except String Nat) (c : keepAliveSshClient) :
    KaClientOutcome :=
  match c.client with
  | some cl => { result := .ok cl, state := c }
  | none =>
    match dial with
    | .error e => { result := .error e, state := c }
    | .ok cl =>
      { result := .ok cl
        state := { c with client := some cl, keepAliveRunning := true } }

/-! ## Executors (executor.go)

Each Execute is one control-flow function over the command (the shared
mutable state) with the external world — context, process spawning, SSH
dialing and session runs — supplied as oracles.  The returned ExecOutcome
carries the returned error, the command as mutated by the call, and the
list of external effects performed, so that "no stream I/O was performed"
is the statement `effects = []`. -/

/-- An error from a remote run: an *ssh.ExitError carrying the remote exit
status, or any other error. -/
inductive SshRunError
  | exitError (exitStatus : Int)
  | otherError (msg : String)
deriving DecidableEq

/-- Errors an Execute call can produce.  A Go runtime panic (which is not
a returned error) is recorded with the `panicked` constructor. -/
inductive ExecuteError
  | ctxDone (msg : String)
  | nilCommand
  | startedCommand
  | invalidCommand (v : ValidateError)
  | validateFailed (v : ValidateError)
  | parseCommand (msg : String)
  | badSshConfig (msg : String)
  | procRun (msg : String)
  | dialFailed (msg : String)
  | sshRun (e : SshRunError)
  | panicked (msg : String)
deriving DecidableEq

/-- Externally visible effects of one Execute call, in order. -/
inductive Effect
  | procRun
  | sshDial
  | sshSession
deriving DecidableEq

/-- Result of one Execute call: returned error, the command value after
the call (none when a nil command was passed), performed effects. -/
structure ExecOutcome where
  err : Option ExecuteError
  cmd : Option Rexec.Command
  effects : List Effect
deriving DecidableEq

/-- Oracle for runProc: the process fails to start, or the context-done
branch of the race wins (the deferred status read then sees whatever
ProcessState the killed process left behind), or Wait returns with an
exit error and ProcessState carrying the exit code. -/
inductive ProcRunOutcome
  | startFailed (msg : String)
  | canceledDuringWait (ctxMsg : String) (processState : Option Int)
  | waited (exitErr : Option String) (exitCode : Int)
deriving DecidableEq

/-- LocalExecutor.Execute: fail fast on a done context, a nil command, an
already-started command; claim the command, force status −1, validate,
tokenize with cmdSlice; index cmdParts[0] (a runtime panic when the token
slice is empty); then run the process and derive the status from
ProcessState in the deferred block. -/
def LocalExecutorExecute (ctxErr : Option String) (outcome : ProcRunOutcome)
    (cmd : Option Rexec.Command) : ExecOutcome :=
  match ctxErr with
  | some m => { err := some (.ctxDone m), cmd := cmd, effects := [] }
  | none =>
  match cmd with
  | none => { err := some .nilCommand, cmd := none, effects := [] }
  | some c =>
    if c.started then { err := some .startedCommand, cmd := some c, effects := [] }
    else
      let c1 := { c with started := true, Status := -1 }
      match c1.Validate with
      | (c2, some v) => { err := some (.invalidCommand v), cmd := some c2, effects := [] }
      | (c2, none) =>
        match cmdSlice c2.Command with
        | .error m => { err := some (.parseCommand m), cmd := some c2, effects := [] }
        | .ok [] =>
          { err := some (.panicked "runtime error: index out of range")
            cmd := some c2, effects := [] }
        | .ok (_ :: _) =>
          match outcome with
          | .startFailed m =>
            { err := some (.procRun m), cmd := some { c2 with Status := -1 }
              effects := [.procRun] }
          | .canceledDuringWait m ps =>
            { err := some (.ctxDone m)
              cmd := some { c2 with Status := match ps with | some k => k | none => -1 }
              effects := [.procRun] }
          | .waited exitErr exitCode =>
            { err := exitErr.map ExecuteError.procRun
              cmd := some { c2 with Status := exitCode }
              effects := [.procRun] }

/-- ShellExecutor.Execute: as Local, but the command line is ShellString
passed to the configured shell, with no tokenization step. -/
def ShellExecutorExecute (ctxErr : Option String) (outcome : ProcRunOutcome)
    (cmd : Option Rexec.Command) : ExecOutcome :=
  match ctxErr with
  | some m => { err := some (.ctxDone m), cmd := cmd, effects := [] }
  | none =>
  match cmd with
  | none => { err := some .nilCommand, cmd := none, effects := [] }
  | some c =>
    if c.started then { err := some .startedCommand, cmd := some c, effects := [] }
    else
      let c1 := { c with started := true, Status := -1 }
      match c1.Validate with
      | (c2, some v) => { err := some (.invalidCommand v), cmd := some c2, effects := [] }
      | (c2, none) =>
        match outcome with
        | .startFailed m =>
          { err := some (.procRun m), cmd := some { c2 with Status := -1 }
            effects := [.procRun] }
        | .canceledDuringWait m ps =>
          { err := some (.ctxDone m)
            cmd := some { c2 with Status := match ps with | some k => k | none => -1 }
            effects := [.procRun] }
        | .waited exitErr exitCode =>
          { err := exitErr.map ExecuteError.procRun
            cmd := some { c2 with Status := exitCode }
            effects := [.procRun] }

/-- The deferred status derivation shared by both SSH executors: 0 on nil
error, the embedded status when errors.As finds an *ssh.ExitError, and −1
for any other non-nil error. -/
def sshDeriveStatus : Option ExecuteError → Int
  | none => 0
  | some (.sshRun (.exitError n)) => n
  | some _ => -1

/-- ImmediateSshExecutor.Execute: done context, config validation, nil
command, claim; then force −1, register the status-deriving defer,
validate, dial, run one session, close the connection; the status written
back is sshDeriveStatus of the returned error on every return path after
the claim. -/
def ImmediateSshExecute (ctxErr : Option String) (configErr : Option String)
    (dial : Except String Unit) (run : Option SshRunError)
    (cmd : Option Rexec.Command) : ExecOutcome :=
  match ctxErr with
  | some m => { err := some (.ctxDone m), cmd := cmd, effects := [] }
  | none =>
  match configErr with
  | some m => { err := some (.badSshConfig m), cmd := cmd, effects := [] }
  | none =>
  match cmd with
  | none => { err := some .nilCommand, cmd := none, effects := [] }
  | some c =>
    if c.started then { err := some .startedCommand, cmd := some c, effects := [] }
    else
      let c1 := { c with started := true, Status := -1 }
      match c1.Validate with
      | (c2, some v) =>
        let err := some (ExecuteError.validateFailed v)
        { err := err, cmd := some { c2 with Status := sshDeriveStatus err }, effects := [] }
      | (c2, none) =>
        match dial with
        | .error m =>
          let err := some (ExecuteError.dialFailed m)
          { err := err, cmd := some { c2 with Status := sshDeriveStatus err }, effects := [] }
        | .ok _ =>
          let err := run.map ExecuteError.sshRun
          { err := err, cmd := some { c2 with Status := sshDeriveStatus err }
            effects := [.sshDial, .sshSession] }

/-- Result of one KeepAliveSshExecutor.Execute call: the outcome plus the
executor's keep-alive client state afterwards. -/
structure KaExecOutcome where
  outcome : ExecOutcome
  ka : Option keepAliveSshClient

/-- KeepAliveSshExecutor.Execute: config validation first, then lazy init
of the keep-alive client, done context, nil command, claim; then force −1,
register the status-deriving defer, validate, get a client from the
keep-alive manager (dialing if it holds none), run one session.  The dial
effect occurs only when the manager held no live client. -/
def KeepAliveSshExecute (configErr : Option String) (ka : Option keepAliveSshClient)
    (ctxErr : Option String) (dial : Except String Nat) (run : Option SshRunError)
    (cmd : Option Rexec.Command) : KaExecOutcome :=
  match configErr with
  | some m => ⟨{ err := some (.badSshConfig m), cmd := cmd, effects := [] }, ka⟩
  | none =>
  let kas := ka.getD { client := none, closed := false, keepAliveRunning := false }
  match ctxErr with
  | some m => ⟨{ err := some (.ctxDone m), cmd := cmd, effects := [] }, some kas⟩
  | none =>
  match cmd with
  | none => ⟨{ err := some .nilCommand, cmd := none, effects := [] }, some kas⟩
  | some c =>
    if c.started then
      ⟨{ err := some .startedCommand, cmd := some c, effects := [] }, some kas⟩
    else
      let c1 := { c with started := true, Status := -1 }
      match c1.Validate with
      | (c2, some v) =>
        let err := some (ExecuteError.validateFailed v)
        ⟨{ err := err, cmd := some { c2 with Status := sshDeriveStatus err }
           effects := [] }, some kas⟩
      | (c2, none) =>
        let cl := keepAliveSshClient.Client dial kas
        match cl.result with
        | .error m =>
          let err := some (ExecuteError.dialFailed m)
          ⟨{ err := err, cmd := some { c2 with Status := sshDeriveStatus err }
             effects := [] }, some cl.state⟩
        | .ok _ =>
          let err := run.map ExecuteError.sshRun
          ⟨{ err := err, cmd := some { c2 with Status := sshDeriveStatus err }
             effects := (match kas.client with | none => [.sshDial] | some _ => []) ++ [.sshSession] }
           , some cl.state⟩

/-- The atomic compare-and-swap on the started flag: the caller wins
exactly when the flag was false, and the flag is true afterwards. -/
def casStarted (c : Rexec.Command) : Bool × Rexec.Command :=
  (!c.started, { c with started := true })

/-- Sequentialization of n concurrent claims: the CAS is atomic, so every
interleaving is a total order of claims; this lists each caller's CAS
result in that order. -/
def casRuns : Nat → Rexec.Command → List Bool
  | 0, _ => []
  | n + 1, c =>
    let r := casStarted c
    r.fst :: casRuns n r.snd

/-- A concrete external world for witnesses: authorized-key parsing always
fails, knownhosts.New always succeeds, and no default known_hosts file
exists on the machine. -/
def extNoFiles : SshExternals Nat :=
  { parseAuthorizedKey := fun _ => .error "ssh: no key found"
    knownHostsNew := fun _ => .ok ()
    osDefaultKnownHostsFiles := [] }

/-- A concrete already-claimed command for the C1 witness. -/
def startedCmd : Rexec.Command := ⟨"echo hello", "", [], none, none, none, 0, true⟩

/-- A concrete unclaimed command for the C6 witness. -/
def unstartedCmd : Rexec.Command := ⟨"echo hello", "", [], none, none, none, 0, false⟩

/-! ## Theorems -/

/-! Sanity checks of the embedding on the concrete vectors of the
repository test suite (Test_cmdSlice, Test_keepAlive_interval). -/

example : cmdSlice "" = .ok [] := rfl
example : cmdSlice "ls" = .ok ["ls"] := rfl
example : cmdSlice "ls -a /usr" = .ok ["ls", "-a", "/usr"] := rfl
example : cmdSlice "cd /tmp && echo \x27hello world\x27" =
    .ok ["cd", "/tmp", "&&", "echo", "hello world"] := rfl
example : cmdSlice "a b \x27c d\x27" = .ok ["a", "b", "c d"] := rfl
example : (cmdSlice "a b \x27c d").isOk = false := rfl
example : cmdSlice " " = .ok [] := rfl
example : strContains "a;b" ";" = true := rfl
example : strContains "ab" "" = true := rfl
example : strContains "ab" "ba" = false := rfl
example :
    (Command.mk "ls -a" "/tmp" [("K", "V")] none none none 0 false).ShellString =
      "cd /tmp && export K=V && ls -a" := rfl
example : (SshKeepAliveConfig.mk 3 1).interval 4 = 7 * Second := by decide
example : (SshKeepAliveConfig.mk (-3) 1).interval 0 = MinSshKeepAliveInterval := by decide
example : (SshKeepAliveConfig.mk 3 1).interval (-1) = 3 * Second := by decide
example : (SshKeepAliveConfig.mk 3 (-1)).interval 1 = 2 * Second := by decide
example : (SshKeepAliveConfig.mk 3 (-1)).interval 10 = MinSshKeepAliveInterval := by decide
example : (SshKeepAliveConfig.mk 0 0).interval 8 = MinSshKeepAliveInterval := by decide


/-- C10: Command.Validate on a non-nil command always replaces nil Stdin,
Stdout and Stderr with the non-nil defaults before performing any check,
so the three stream fields of the returned command are non-nil whether or
not Validate reports an error, they equal the input handles with nil
replaced by the defaults, and every other field of the command is left
unchanged by Validate. -/
theorem Validate_defaults_stdio_and_frames_rest (e : Rexec.Command) :
    (e.Validate.fst.Stdin ≠ none ∧ e.Validate.fst.Stdout ≠ none ∧ e.Validate.fst.Stderr ≠ none)
    ∧ e.Validate.fst.Stdin =
        (match e.Stdin with | none => some .emptyBytesReader | some s => some s)
    ∧ e.Validate.fst.Stdout =
        (match e.Stdout with | none => some .emptyBuffer | some s => some s)
    ∧ e.Validate.fst.Stderr =
        (match e.Stderr with | none => some .emptyBuffer | some s => some s)
    ∧ e.Validate.fst.Command = e.Command
    ∧ e.Validate.fst.Workdir = e.Workdir
    ∧ e.Validate.fst.Env = e.Env
    ∧ e.Validate.fst.Status = e.Status
    ∧ e.Validate.fst.started = e.started := by
  rcases e with ⟨cmd, wd, env, si, so, se, st, fl⟩
  cases si <;> cases so <;> cases se <;>
    simp [Command.Validate, Command.setDefaultStdio]

/-- Values already inside the signed 64-bit range are fixed points of the
wrap. -/
theorem i64_eq_self {x : Int} (h1 : -(2 ^ 63) ≤ x) (h2 : x < 2 ^ 63) : i64 x = x := by
  unfold i64; omega

/-- C3 (amended): as long as none of the intermediate Go duration products
and sums overflows int64, the keep-alive schedule is the pure function
interval(retries) = max(base + increment·retries, floor) with base the
interval clamped to 0 when negative, retries clamped to 0 when negative,
and floor = MinSshKeepAliveInterval.  The int64-overflow proviso is the
amendment: Go's wrapping 64-bit duration arithmetic breaks the equation
for astronomically large increments (see the counterexample). -/
theorem interval_eq_max_of_no_overflow (c : SshKeepAliveConfig) (retries : Int)
    (h1 : max c.IntervalSeconds 0 * Second < 2 ^ 63)
    (h2l : -(2 ^ 63) ≤ c.IncrementSeconds * Second)
    (h2r : c.IncrementSeconds * Second < 2 ^ 63)
    (h3l : -(2 ^ 63) ≤ c.IncrementSeconds * Second * max retries 0)
    (h3r : c.IncrementSeconds * Second * max retries 0 < 2 ^ 63)
    (h4l : -(2 ^ 63) ≤ max c.IntervalSeconds 0 * Second + c.IncrementSeconds * Second * max retries 0)
    (h4r : max c.IntervalSeconds 0 * Second + c.IncrementSeconds * Second * max retries 0 < 2 ^ 63) :
    c.interval retries =
      max (max c.IntervalSeconds 0 * Second + c.IncrementSeconds * Second * max retries 0)
        MinSshKeepAliveInterval := by
  have hb : (if c.IntervalSeconds < 0 then (0 : Int) else c.IntervalSeconds) =
      max c.IntervalSeconds 0 := by split <;> omega
  have hr : (if retries < 0 then (0 : Int) else retries) = max retries 0 := by
    split <;> omega
  have h1l : -(2 ^ 63) ≤ max c.IntervalSeconds 0 * Second := by
    have : (0 : Int) ≤ max c.IntervalSeconds 0 * Second :=
      mul_nonneg (le_max_right _ _) (by norm_num [Second])
    omega
  simp only [SshKeepAliveConfig.interval, hb, hr]
  rw [i64_eq_self h2l h2r, i64_eq_self h3l h3r, i64_eq_self h1l h1,
    i64_eq_self h4l h4r]
  split <;> omega

/-- C3 witness: scenario D — base 3 s and increment 1 s give 7 s after 4
retries, and a negative base with 0 retries falls to the floor; both via
the amended formula. -/
theorem interval_eq_max_of_no_overflow_witness :
    (SshKeepAliveConfig.mk 3 1).interval 4 = 7 * Second ∧
    (SshKeepAliveConfig.mk (-3) 1).interval 0 = MinSshKeepAliveInterval := by
  constructor
  · have h := interval_eq_max_of_no_overflow (SshKeepAliveConfig.mk 3 1) 4
      (by decide) (by decide) (by decide) (by decide) (by decide) (by decide) (by decide)
    simpa using h
  · have h := interval_eq_max_of_no_overflow (SshKeepAliveConfig.mk (-3) 1) 0
      (by decide) (by decide) (by decide) (by decide) (by decide) (by decide) (by decide)
    simpa using h

/-- C3 counterexample: with IncrementSeconds = 2^55 and one retry the Go
product IncrementSeconds·Second wraps to exactly 0 modulo 2^64, so the
code returns the 1-second floor while the claimed formula
max(base + increment·retries, floor) demands 2^55 seconds. -/
theorem interval_ne_max_formula_on_overflow :
    (SshKeepAliveConfig.mk 0 (2 ^ 55)).interval 1 = MinSshKeepAliveInterval ∧
    (SshKeepAliveConfig.mk 0 (2 ^ 55)).interval 1 ≠
      max (max (0 : Int) 0 * Second + 2 ^ 55 * Second * max (1 : Int) 0)
        MinSshKeepAliveInterval := by
  constructor
  · decide
  · decide

/-- C8: the schedule is always at least the floor (the final clamp runs
after all arithmetic), but it is NOT non-decreasing in retries for every
nonnegative increment: at IncrementSeconds = 2^54 the wrapped Go product
is −2^63 ns, so interval(1) = floor < interval(0) = 3 s.  The repository's
own fuzz test (Fuzz_keepAlive_interval) asserts the violated inequality
for positive increments and retries, so the code contradicts its own
test suite at this input. -/
theorem interval_monotonicity_violated_by_overflow :
    (∀ (c : SshKeepAliveConfig) (r : Int), MinSshKeepAliveInterval ≤ c.interval r)
    ∧ (0 : Int) ≤ 2 ^ 54
    ∧ (0 : Int) ≤ 1
    ∧ (SshKeepAliveConfig.mk 3 (2 ^ 54)).interval 0 = 3 * Second
    ∧ (SshKeepAliveConfig.mk 3 (2 ^ 54)).interval 1 = MinSshKeepAliveInterval
    ∧ ¬ (SshKeepAliveConfig.mk 3 (2 ^ 54)).interval 0 ≤
        (SshKeepAliveConfig.mk 3 (2 ^ 54)).interval 1 := by
  refine ⟨?_, by decide, by decide, by decide, by decide, by decide⟩
  intro c r
  simp only [SshKeepAliveConfig.interval]
  split <;> omega

/-- C2: with the system-default host-identity policy — a nil config, or
one with empty FixedHostKey, empty KnownHostsPath and InsecureIgnore
false — and no existing well-known known_hosts file, hostKeyCallback
succeeds with the deny-all callback, and that callback rejects every
(hostname, remote address, key) triple, so every dial attempt fails at
the host-key check even against a reachable, correctly authenticating
host. -/
theorem hostKeyCallback_systemDefault_denyAll {κ : Type} [DecidableEq κ]
    (ext : SshExternals κ) (config : Option SshHostKeyCheckConfig)
    (hfiles : ext.osDefaultKnownHostsFiles = [])
    (hconfig : config = none ∨ config = some ⟨"", [], false⟩) :
    ∃ msg, hostKeyCallback ext config = .ok (.denyAll msg) ∧
      ∀ (kh : List String → String → String → κ → Except String Unit)
        (hostname remote : String) (key : κ),
        HostKeyCallback.eval kh (.denyAll msg) hostname remote key =
          .error ("ssh: all host keys are denied: " ++ msg) := by
  refine ⟨"make sure you have a known_hosts file at ~/.ssh/known_hosts or /etc/ssh/ssh_known_hosts",
    ?_, fun kh hostname remote key => rfl⟩
  rcases hconfig with h | h <;> subst h <;>
    simp [hostKeyCallback, defaultKnownHostsCallback, denyAllHostKeys, hfiles]

/-- C2 witness: the deny-all policy at the concrete external world with no
trust files and a nil config. -/
theorem hostKeyCallback_systemDefault_denyAll_witness :
    ∃ msg, hostKeyCallback extNoFiles none = .ok (.denyAll msg) ∧
      ∀ (kh : List String → String → String → Nat → Except String Unit)
        (hostname remote : String) (key : Nat),
        HostKeyCallback.eval kh (.denyAll msg) hostname remote key =
          .error ("ssh: all host keys are denied: " ++ msg) :=
  hostKeyCallback_systemDefault_denyAll extNoFiles none rfl (Or.inl rfl)

/-- C7 (amended): with a NON-EMPTY FixedHostKey, an unparseable key makes
hostKeyCallback fail — a configuration error surfaced by dialSsh before
any network I/O — and a parseable key installs the exact-match callback,
which accepts precisely the configured key and nothing else (never
accept-all).  An EMPTY FixedHostKey, however, is not an error: the config
falls through to KnownHostsPath, then InsecureIgnore, then the default
known_hosts resolution.  The fall-through on empty keys is the
amendment. -/
theorem fixedHostKey_exact_match_or_config_error {κ : Type} [DecidableEq κ]
    (ext : SshExternals κ) (config : SshHostKeyCheckConfig)
    (hne : config.FixedHostKey ≠ "") :
    (∀ e, ext.parseAuthorizedKey config.FixedHostKey.trim = .error e →
      hostKeyCallback ext (some config) = .error e)
    ∧ (∀ k, ext.parseAuthorizedKey config.FixedHostKey.trim = .ok k →
      hostKeyCallback ext (some config) = .ok (.fixedHostKey k)
      ∧ ∀ (kh : List String → String → String → κ → Except String Unit)
          (hostname remote : String) (key : κ),
          (HostKeyCallback.eval kh (.fixedHostKey k) hostname remote key = .ok ()
            ↔ key = k)) := by
  constructor
  · intro e he
    simp [hostKeyCallback, hne, he]
  · intro k hk
    refine ⟨by simp [hostKeyCallback, hne, hk], fun kh hostname remote key => ?_⟩
    by_cases h : key = k <;> simp [HostKeyCallback.eval, h]

/-- C7 witness: a parseable fixed key at a concrete external world; the
resulting callback accepts exactly that key. -/
theorem fixedHostKey_exact_match_witness :
    hostKeyCallback
        (⟨fun _ => .ok 7, fun _ => .ok (), []⟩ : SshExternals Nat)
        (some ⟨"ssh-ed25519 AAAA", [], false⟩) = .ok (.fixedHostKey 7)
    ∧ ∀ (kh : List String → String → String → Nat → Except String Unit)
        (hostname remote : String) (key : Nat),
        (HostKeyCallback.eval kh (.fixedHostKey 7) hostname remote key = .ok ()
          ↔ key = 7) :=
  (fixedHostKey_exact_match_or_config_error
    (⟨fun _ => .ok 7, fun _ => .ok (), []⟩ : SshExternals Nat)
    ⟨"ssh-ed25519 AAAA", [], false⟩ (by decide)).right 7 rfl

/-- C7 counterexample: an empty FixedHostKey is NOT a hard configuration
error — hostKeyCallback succeeds: with an otherwise-zero config it falls
through to the (deny-all) default, and with InsecureIgnore set it even
falls through to the accept-all callback. -/
theorem emptyFixedHostKey_is_not_an_error :
    (hostKeyCallback extNoFiles (some ⟨"", [], false⟩)).isOk = true
    ∧ hostKeyCallback extNoFiles (some ⟨"", [], true⟩) = .ok .insecureIgnoreHostKey := by
  constructor
  · rfl
  · rfl

/-- C4: calling Close() twice: the first call never reports the
idempotency error (it returns the underlying client's close result), marks
the client closed, stops the keep-alive goroutine and closes the
underlying connection at most once; the second call returns the distinct
ErrAlreadyClosed, changes nothing, performs no further underlying close —
so the connection is never double-closed — and the keep-alive loop stays
stopped after either call. -/
theorem close_twice_already_closed (c : keepAliveSshClient) (e1 e2 : Option String)
    (h : c.closed = false) :
    (keepAliveSshClient.Close e1 c).err ≠ some .alreadyClosed
    ∧ (keepAliveSshClient.Close e1 c).state.closed = true
    ∧ (keepAliveSshClient.Close e1 c).state.keepAliveRunning = false
    ∧ (keepAliveSshClient.Close e1 c).underlyingCloseCalls ≤ 1
    ∧ (keepAliveSshClient.Close e2 (keepAliveSshClient.Close e1 c).state).err =
        some .alreadyClosed
    ∧ (keepAliveSshClient.Close e2 (keepAliveSshClient.Close e1 c).state).state =
        (keepAliveSshClient.Close e1 c).state
    ∧ (keepAliveSshClient.Close e2 (keepAliveSshClient.Close e1 c).state).underlyingCloseCalls
        = 0
    ∧ (keepAliveSshClient.Close e2 (keepAliveSshClient.Close e1 c).state).state.keepAliveRunning
        = false := by
  rcases c with ⟨cl, closed, ka⟩
  cases closed with
  | true => cases h
  | false =>
    cases cl <;> cases e1 <;>
      simp [keepAliveSshClient.Close]

/-- C4 witness: double Close on a live client with a running keep-alive
loop. -/
theorem close_twice_already_closed_witness :
    (keepAliveSshClient.Close none ⟨some 0, false, true⟩).err ≠ some .alreadyClosed
    ∧ (keepAliveSshClient.Close none ⟨some 0, false, true⟩).state.closed = true
    ∧ (keepAliveSshClient.Close none ⟨some 0, false, true⟩).state.keepAliveRunning = false
    ∧ (keepAliveSshClient.Close none ⟨some 0, false, true⟩).underlyingCloseCalls ≤ 1
    ∧ (keepAliveSshClient.Close none
        (keepAliveSshClient.Close none ⟨some 0, false, true⟩).state).err =
          some .alreadyClosed
    ∧ (keepAliveSshClient.Close none
        (keepAliveSshClient.Close none ⟨some 0, false, true⟩).state).state =
          (keepAliveSshClient.Close none ⟨some 0, false, true⟩).state
    ∧ (keepAliveSshClient.Close none
        (keepAliveSshClient.Close none ⟨some 0, false, true⟩).state).underlyingCloseCalls = 0
    ∧ (keepAliveSshClient.Close none
        (keepAliveSshClient.Close none ⟨some 0, false, true⟩).state).state.keepAliveRunning
        = false :=
  close_twice_already_closed ⟨some 0, false, true⟩ none none rfl

/-- C5 (amended): Close() marks the manager closed and stops the probe
loop, the mark persists — any later Close() keeps reporting
ErrAlreadyClosed, even after intervening Client() calls — but the mark
does not make the manager permanently closed: Client() never consults it,
so a later Client() call on the closed manager re-dials on success,
stores a fresh connection and restarts the keep-alive loop. -/
theorem close_marks_closed_but_client_redials (c : keepAliveSshClient)
    (e1 : Option String) (cl : Nat) (h : c.closed = false) :
    (keepAliveSshClient.Close e1 c).state.closed = true
    ∧ (keepAliveSshClient.Close e1 c).state.client = none
    ∧ (keepAliveSshClient.Close e1 c).state.keepAliveRunning = false
    ∧ (∀ d, (keepAliveSshClient.Client d (keepAliveSshClient.Close e1 c).state).state.closed
        = true)
    ∧ (keepAliveSshClient.Client (.ok cl) (keepAliveSshClient.Close e1 c).state).result =
        .ok cl
    ∧ (keepAliveSshClient.Client (.ok cl) (keepAliveSshClient.Close e1 c).state).state.client
        = some cl
    ∧ (keepAliveSshClient.Client (.ok cl)
        (keepAliveSshClient.Close e1 c).state).state.keepAliveRunning = true
    ∧ ∀ d e2, (keepAliveSshClient.Close e2
        (keepAliveSshClient.Client d (keepAliveSshClient.Close e1 c).state).state).err =
          some .alreadyClosed := by
  rcases c with ⟨cl0, closed, ka⟩
  cases closed with
  | true => cases h
  | false =>
    cases cl0 <;>
      refine ⟨rfl, rfl, rfl, fun d => ?_, rfl, rfl, rfl, fun d e2 => ?_⟩ <;>
      cases d <;> rfl

/-- C5 witness: the amended behavior at a concrete closed manager. -/
theorem close_marks_closed_but_client_redials_witness :
    (keepAliveSshClient.Close none ⟨some 0, false, true⟩).state.closed = true
    ∧ (keepAliveSshClient.Close none ⟨some 0, false, true⟩).state.client = none
    ∧ (keepAliveSshClient.Close none ⟨some 0, false, true⟩).state.keepAliveRunning = false
    ∧ (∀ d, (keepAliveSshClient.Client d
        (keepAliveSshClient.Close none ⟨some 0, false, true⟩).state).state.closed = true)
    ∧ (keepAliveSshClient.Client (.ok 1)
        (keepAliveSshClient.Close none ⟨some 0, false, true⟩).state).result = .ok 1
    ∧ (keepAliveSshClient.Client (.ok 1)
        (keepAliveSshClient.Close none ⟨some 0, false, true⟩).state).state.client = some 1
    ∧ (keepAliveSshClient.Client (.ok 1)
        (keepAliveSshClient.Close none ⟨some 0, false, true⟩).state).state.keepAliveRunning
        = true
    ∧ ∀ d e2, (keepAliveSshClient.Close e2
        (keepAliveSshClient.Client d
          (keepAliveSshClient.Close none ⟨some 0, false, true⟩).state).state).err =
            some .alreadyClosed :=
  close_marks_closed_but_client_redials ⟨some 0, false, true⟩ none 1 rfl

/-- C5 counterexample: after Close() on a live manager, a Client() call
with a successful dial returns a fresh connection and the state holds a
new live client with the keep-alive loop running again — the original
claim that no later Client() call establishes a connection or restarts the
loop is false. -/
theorem client_after_close_establishes_connection :
    (keepAliveSshClient.Close none ⟨some 0, false, true⟩).state.closed = true
    ∧ keepAliveSshClient.Client (.ok 1)
        (keepAliveSshClient.Close none ⟨some 0, false, true⟩).state =
      { result := .ok 1, state := ⟨some 1, true, true⟩ } := by
  constructor
  · rfl
  · rfl

/-- C9: the whitespace-only command " " passes Validate — it is non-empty
and contains no dangerous substring — yet cmdSlice (shlex.Split) returns
an empty token slice with a nil error, so LocalExecutor.Execute's access
of cmdParts[0] is out of bounds: the run reaches the runtime-panic branch
of the model with the status left at the −1 sentinel and no process
spawned. -/
theorem whitespace_command_validates_but_yields_no_tokens :
    (Command.mk " " "" [] none none none 0 false).Validate.snd = none
    ∧ cmdSlice " " = .ok []
    ∧ LocalExecutorExecute none (.waited none 0)
        (some (Command.mk " " "" [] none none none 0 false)) =
      { err := some (.panicked "runtime error: index out of range")
        cmd := some (Command.mk " " "" [] (some .emptyBytesReader) (some .emptyBuffer)
          (some .emptyBuffer) (-1) true)
        effects := [] } := by
  refine ⟨rfl, rfl, rfl⟩

/-- After the single-start flag is set, every further compare-and-swap
fails. -/
theorem casRuns_count_true_of_started (n : Nat) (c : Rexec.Command)
    (h : c.started = true) : (casRuns n c).count true = 0 := by
  induction n generalizing c with
  | zero => rfl
  | succ n ih => simp [casRuns, casStarted, h, ih]

/-- C1: for every executor variant, when the command's single-start flag is
already set (and the guards checked before the claim pass: live context,
non-nil command, and a valid client config for the SSH variants), Execute
returns ErrStartedCommand with the command completely unchanged — in
particular Status is not mutated — and performs no external effect (no
stream I/O, process spawn, dial or session); and sequentializing any n ≥ 1
concurrent Execute calls on one command with an unset flag, exactly one
caller's compare-and-swap from false to true succeeds and proceeds past
the claim. -/
theorem execute_already_started_rejected
    (c : Rexec.Command) (h : c.started = true)
    (outcome : ProcRunOutcome) (dial : Except String Unit)
    (dialKa : Except String Nat) (run : Option SshRunError)
    (ka : Option keepAliveSshClient) :
    LocalExecutorExecute none outcome (some c) =
      { err := some .startedCommand, cmd := some c, effects := [] }
    ∧ ShellExecutorExecute none outcome (some c) =
      { err := some .startedCommand, cmd := some c, effects := [] }
    ∧ ImmediateSshExecute none none dial run (some c) =
      { err := some .startedCommand, cmd := some c, effects := [] }
    ∧ (KeepAliveSshExecute none ka none dialKa run (some c)).outcome =
      { err := some .startedCommand, cmd := some c, effects := [] }
    ∧ ∀ (n : Nat) (c0 : Rexec.Command), c0.started = false → 1 ≤ n →
        (casRuns n c0).count true = 1 := by
  refine ⟨?_, ?_, ?_, ?_, ?_⟩
  · simp [LocalExecutorExecute, h]
  · simp [ShellExecutorExecute, h]
  · simp [ImmediateSshExecute, h]
  · simp [KeepAliveSshExecute, h]
  · intro n c0 h0 hn
    cases n with
    | zero => omega
    | succ m => simp [casRuns, casStarted, h0, casRuns_count_true_of_started]

/-- C1 witness: the four variants at the concrete claimed command, with
concrete oracles. -/
theorem execute_already_started_rejected_witness :
    LocalExecutorExecute none (.waited none 0) (some startedCmd) =
      { err := some .startedCommand, cmd := some startedCmd, effects := [] }
    ∧ ShellExecutorExecute none (.waited none 0) (some startedCmd) =
      { err := some .startedCommand, cmd := some startedCmd, effects := [] }
    ∧ ImmediateSshExecute none none (.ok ()) none (some startedCmd) =
      { err := some .startedCommand, cmd := some startedCmd, effects := [] }
    ∧ (KeepAliveSshExecute none none none (.ok 0) none (some startedCmd)).outcome =
      { err := some .startedCommand, cmd := some startedCmd, effects := [] }
    ∧ ∀ (n : Nat) (c0 : Rexec.Command), c0.started = false → 1 ≤ n →
        (casRuns n c0).count true = 1 :=
  execute_already_started_rejected startedCmd rfl (.waited none 0) (.ok ()) (.ok 0)
    none none

/-- C6: in both SSH executor variants, once an attempt has claimed the
command (the guards pass and the flag was unset), the Status written back
is derived uniformly from the error the run produced, by the same
derivation sshDeriveStatus in both variants: 0 when the error is nil, the
embedded exit status when the error is the transport exit-status carrier
(ssh.ExitError), and the sentinel −1 for any other non-nil error. -/
theorem ssh_executors_uniform_status_derivation
    (c : Rexec.Command) (h : c.started = false)
    (dial : Except String Unit) (dialKa : Except String Nat)
    (run : Option SshRunError) (ka : Option keepAliveSshClient) :
    (∃ (c2 : Rexec.Command) (err : Option ExecuteError) (effs : List Effect),
      ImmediateSshExecute none none dial run (some c) = ⟨err, some c2, effs⟩
      ∧ c2.Status = sshDeriveStatus err)
    ∧ (∃ (c2 : Rexec.Command) (err : Option ExecuteError) (effs : List Effect)
        (ka2 : Option keepAliveSshClient),
      KeepAliveSshExecute none ka none dialKa run (some c) = ⟨⟨err, some c2, effs⟩, ka2⟩
      ∧ c2.Status = sshDeriveStatus err)
    ∧ sshDeriveStatus none = 0
    ∧ (∀ n, sshDeriveStatus (some (.sshRun (.exitError n))) = n)
    ∧ (∀ e, (∀ n, e ≠ .sshRun (.exitError n)) → sshDeriveStatus (some e) = -1) := by
  refine ⟨?_, ?_, rfl, fun n => rfl, ?_⟩
  · rcases hval : ({ c with started := true, Status := -1 } : Rexec.Command).Validate
      with ⟨c2, v⟩
    cases v with
    | some ve =>
      exact ⟨{ c2 with Status := sshDeriveStatus (some (.validateFailed ve)) },
        some (.validateFailed ve), [],
        by simp [ImmediateSshExecute, h, hval], rfl⟩
    | none =>
      cases dial with
      | error m =>
        exact ⟨{ c2 with Status := sshDeriveStatus (some (.dialFailed m)) },
          some (.dialFailed m), [],
          by simp [ImmediateSshExecute, h, hval], rfl⟩
      | ok u =>
        exact ⟨{ c2 with Status := sshDeriveStatus (run.map .sshRun) },
          run.map .sshRun, [.sshDial, .sshSession],
          by simp [ImmediateSshExecute, h, hval], rfl⟩
  · rcases hval : ({ c with started := true, Status := -1 } : Rexec.Command).Validate
      with ⟨c2, v⟩
    cases v with
    | some ve =>
      exact ⟨{ c2 with Status := sshDeriveStatus (some (.validateFailed ve)) },
        some (.validateFailed ve), [], some (ka.getD ⟨none, false, false⟩),
        by simp [KeepAliveSshExecute, h, hval], rfl⟩
    | none =>
      rcases hcl : (keepAliveSshClient.Client dialKa
          (ka.getD ⟨none, false, false⟩)).result with m | u
      · exact ⟨{ c2 with Status := sshDeriveStatus (some (.dialFailed m)) },
          some (.dialFailed m), [],
          some (keepAliveSshClient.Client dialKa (ka.getD ⟨none, false, false⟩)).state,
          by simp [KeepAliveSshExecute, h, hval, hcl], rfl⟩
      · exact ⟨{ c2 with Status := sshDeriveStatus (run.map .sshRun) },
          run.map .sshRun,
          (match (ka.getD ⟨none, false, false⟩).client with
            | none => [.sshDial] | some _ => []) ++ [.sshSession],
          some (keepAliveSshClient.Client dialKa (ka.getD ⟨none, false, false⟩)).state,
          by simp [KeepAliveSshExecute, h, hval, hcl], rfl⟩
  · intro e he
    cases e with
    | sshRun se =>
      cases se with
      | exitError n => exact absurd rfl (he n)
      | otherError m => rfl
    | ctxDone m => rfl
    | nilCommand => rfl
    | startedCommand => rfl
    | invalidCommand v => rfl
    | validateFailed v => rfl
    | parseCommand m => rfl
    | badSshConfig m => rfl
    | procRun m => rfl
    | dialFailed m => rfl
    | panicked m => rfl

/-- C6 witness: the uniform derivation at a concrete unclaimed command
with a remote run ending in an exit-status carrier. -/
theorem ssh_executors_uniform_status_derivation_witness :
    (∃ (c2 : Rexec.Command) (err : Option ExecuteError) (effs : List Effect),
      ImmediateSshExecute none none (.ok ()) (some (.exitError 42)) (some unstartedCmd)
        = ⟨err, some c2, effs⟩
      ∧ c2.Status = sshDeriveStatus err)
    ∧ (∃ (c2 : Rexec.Command) (err : Option ExecuteError) (effs : List Effect)
        (ka2 : Option keepAliveSshClient),
      KeepAliveSshExecute none none none (.ok 0) (some (.exitError 42)) (some unstartedCmd)
        = ⟨⟨err, some c2, effs⟩, ka2⟩
      ∧ c2.Status = sshDeriveStatus err)
    ∧ sshDeriveStatus none = 0
    ∧ (∀ n, sshDeriveStatus (some (.sshRun (.exitError n))) = n)
    ∧ (∀ e, (∀ n, e ≠ .sshRun (.exitError n)) → sshDeriveStatus (some e) = -1) :=
  ssh_executors_uniform_status_derivation unstartedCmd rfl (.ok ()) (.ok 0)
    (some (.exitError 42)) none

end Rexec
